import Mathlib

/-!
Verification development for the job-search email system.

The Python sources are shallowly embedded below:
* `daily_job_search.py` — sticky "hot jobs" reconciliation
  (`fetch_hot_jobs`, `_is_in_tracker`, `_is_blocklisted`,
  `save_hot_jobs_current`, `load_hot_jobs_current`, `load_hot_jobs_blocklist`,
  `get_hot_job_location_tier`);
* `remote_search/remote_job_search.py` — the remote-search pipeline
  (`filter_jobs`, `sort_jobs`, `dedup_jobs`, `get_location_tier`,
  `is_explicitly_remote`, and the six source fetchers).

Strings are modelled as Lean `String` (lists of characters); Python's
`needle in hay`, `str.lower`, `str.strip`, `str.startswith`, slicing and
`str.split` are given explicit executable definitions.
-/

namespace JobSearch

/-- Does `n` occur at the head of `h`?  (Helper for substring search.) -/
def leadM : List Char → List Char → Bool
  | [], _ => true
  | _ :: _, [] => false
  | n :: ns, c :: cs => n == c && leadM ns cs

/-- Python's `n in h` on strings: does `n` occur contiguously inside `h`? -/
def subM (n : List Char) : List Char → Bool
  | [] => leadM n []
  | c :: cs => leadM n (c :: cs) || subM n cs

/-- Python `needle in hay` for `String`s. -/
def pySub (needle hay : String) : Bool := subM needle.data hay.data

/-- Python `str.lower()` (ASCII case folding, as used by the sources). -/
def pyLower (s : String) : String := ⟨s.data.map Char.toLower⟩

/-- Python `str.strip()`: drop leading and trailing whitespace. -/
def pyStrip (s : String) : String :=
  ⟨((s.data.dropWhile Char.isWhitespace).reverse.dropWhile Char.isWhitespace).reverse⟩

/-- The `x.lower().strip()` normalisation that the sources apply to
company and title strings. -/
def pyNorm (s : String) : String := pyStrip (pyLower s)

/-- Python `str.startswith`. -/
def pyStarts (pre s : String) : Bool := leadM pre.data s.data

/-- Python `s[::-1]`: reverse a string. -/
def pyRev (s : String) : String := ⟨s.data.reverse⟩

/-- Python `s[:10]`. -/
def take10 (s : String) : String := ⟨s.data.take 10⟩

/-- Python `s.split(sep)[0]` for a one-character separator:
everything before the first occurrence of `ch`. -/
def beforeChar (ch : Char) (s : String) : String := ⟨s.data.takeWhile (· != ch)⟩

/-- Python `s.split(sep, 1)` when `sep in s`: the parts before and after
the first occurrence of `sep`; `none` when `sep` does not occur. -/
def splitFirst (sep : List Char) : List Char → Option (List Char × List Char)
  | [] => if leadM sep [] then some ([], []) else none
  | c :: cs =>
    if leadM sep (c :: cs) then some ([], (c :: cs).drop sep.length)
    else
      match splitFirst sep cs with
      | some (a, b) => some (c :: a, b)
      | none => none

/-- `splitFirst` on `String`s. -/
def pySplitOnce (sep s : String) : Option (String × String) :=
  (splitFirst sep.data s.data).map fun p => (⟨p.1⟩, ⟨p.2⟩)

/-- `any(n in hay for n in needles)`. -/
def anySub (needles : List String) (hay : String) : Bool :=
  needles.any fun n => pySub n hay

/-- Python `", ".join(xs)`. -/
def joinComma (xs : List String) : String := String.intercalate ", " xs

/-! Basic substring lemmas. -/

theorem leadM_append {n h : List Char} (t : List Char) (hl : leadM n h = true) :
    leadM n (h ++ t) = true := by
  induction n generalizing h with
  | nil => simp [leadM]
  | cons a as ih =>
    cases h with
    | nil => simp [leadM] at hl
    | cons c cs =>
      simp only [leadM, Bool.and_eq_true] at hl ⊢
      exact ⟨hl.1, ih hl.2⟩

theorem subM_nil_needle (l : List Char) : subM [] l = true := by
  induction l with
  | nil => rfl
  | cons c cs ih => simp [subM, leadM]

theorem subM_append_left {n a : List Char} (b : List Char) (h : subM n a = true) :
    subM n (a ++ b) = true := by
  induction a with
  | nil =>
    cases n with
    | nil => exact subM_nil_needle b
    | cons x xs => simp [subM, leadM] at h
  | cons c cs ih =>
    simp only [subM, Bool.or_eq_true] at h
    rcases h with h | h
    · simp only [List.cons_append, subM, Bool.or_eq_true]
      exact Or.inl (leadM_append b h)
    · simp only [List.cons_append, subM, Bool.or_eq_true]
      exact Or.inr (ih h)

theorem subM_append_right {n b : List Char} (a : List Char) (h : subM n b = true) :
    subM n (a ++ b) = true := by
  induction a with
  | nil => simpa using h
  | cons c cs ih =>
    simp only [List.cons_append, subM, Bool.or_eq_true]
    exact Or.inr ih

theorem pySub_append_left {n a : String} (b : String) (h : pySub n a = true) :
    pySub n (a ++ b) = true := by
  simpa [pySub, String.data_append] using subM_append_left b.data h

theorem pySub_append_right {n b : String} (a : String) (h : pySub n b = true) :
    pySub n (a ++ b) = true := by
  simpa [pySub, String.data_append] using subM_append_right a.data h

theorem anySub_of_mem {needles : List String} {n hay : String}
    (hm : n ∈ needles) (h : pySub n hay = true) : anySub needles hay = true :=
  List.any_eq_true.mpr ⟨n, hm, h⟩

/-! ## Hot jobs (`daily_job_search.py`)

A LinkedIn hot-job listing is a dict with keys `company`, `title`, `url`,
`location` (built by `fetch_linkedin_jobs`). -/

structure HJob where
  company : String
  title : String
  url : String
  location : String
deriving DecidableEq, Repr

/-- `_is_in_tracker(job_company, tracker_names)`: substring match in either
direction against any tracker company name. -/
def is_in_tracker (jobCompany : String) (trackerNames : List String) : Bool :=
  trackerNames.any fun t => pySub t jobCompany || pySub jobCompany t

/-- `_is_blocklisted(job_company, job_title, blocklist)`: an entry
`"company||role"` blocks jobs whose company contains `company` and whose
title contains `role`; a legacy entry without `||` blocks by company
substring match in either direction. -/
def is_blocklisted (jobCompany jobTitle : String) (blocklist : List String) : Bool :=
  blocklist.any fun entry =>
    match splitFirst "||".data entry.data with
    | some (c, r) => pySub ⟨c⟩ jobCompany && pySub ⟨r⟩ jobTitle
    | none => pySub entry jobCompany || pySub jobCompany entry

/-- `get_hot_job_location_tier(location)`:
Paris(0) → France(1) → EMEA(2) → Other(3). -/
def get_hot_job_location_tier (location : String) : Nat :=
  let loc := pyLower location
  if pySub "paris" loc then 0
  else if pySub "france" loc || pySub "île-de-france" loc || pySub "ile-de-france" loc then 1
  else if (["europe", "emea", "germany", "netherlands", "belgium", "spain",
            "italy", "switzerland", "uk", "united kingdom", "ireland",
            "sweden", "denmark", "portugal", "austria", "poland"].any
            fun e => pySub e loc) then 2
  else 3

/-- Stable insertion into a sorted list: `a` goes before the first element
`b` with `¬ lt b a`, i.e. after every strictly smaller element and before
equal ones inserted earlier from further right. -/
def sInsert {α : Type} (lt : α → α → Bool) (a : α) : List α → List α
  | [] => [a]
  | b :: bs => if lt b a then b :: sInsert lt a bs else a :: b :: bs

/-- Stable sort (insertion sort), modelling Python's stable `list.sort` /
`sorted`. -/
def sSort {α : Type} (lt : α → α → Bool) : List α → List α
  | [] => []
  | a :: as => sInsert lt a (sSort lt as)

/-- `candidates.sort(key=lambda j: get_hot_job_location_tier(j['location']))`. -/
def sortByTier (candidates : List HJob) : List HJob :=
  sSort (fun a b =>
    get_hot_job_location_tier a.location < get_hot_job_location_tier b.location) candidates

/-- The candidate-collection loop of `fetch_hot_jobs`: walk the fetched
jobs (all queries flattened in order), skipping jobs whose url or
normalised (company, title) key was already seen, jobs whose company is in
the tracker, and blocklisted jobs. -/
def collectCands (trackerNames blocklist : List String)
    (urls : List String) (keys : List (String × String)) :
    List HJob → List HJob
  | [] => []
  | job :: rest =>
    if urls.contains job.url then
      collectCands trackerNames blocklist urls keys rest
    else if keys.contains (pyNorm job.company, pyNorm job.title) then
      collectCands trackerNames blocklist urls keys rest
    else if is_in_tracker (pyNorm job.company) trackerNames then
      collectCands trackerNames blocklist urls keys rest
    else if is_blocklisted (pyNorm job.company) (pyNorm job.title) blocklist then
      collectCands trackerNames blocklist urls keys rest
    else
      job :: collectCands trackerNames blocklist (job.url :: urls)
        ((pyNorm job.company, pyNorm job.title) :: keys) rest

/-- The `kept` list of a category: persisted entries whose company is not
(now) in the tracker. -/
def keptOf (trackerNames : List String) (existing : List HJob) : List HJob :=
  existing.filter fun j => !is_in_tracker (pyNorm j.company) trackerNames

/-- The deduplicated candidates fetched for one category (`fetch` models
`fetch_linkedin_jobs`; the query list is walked in order and the
dedup state is seeded from `kept`). -/
def candidatesOf (fetch : String → String → List HJob)
    (queryList : List (String × String)) (kept : List HJob)
    (trackerNames blocklist : List String) : List HJob :=
  collectCands trackerNames blocklist
    (kept.map (·.url))
    (kept.map fun j => (pyNorm j.company, pyNorm j.title))
    ((queryList.map fun q => fetch q.1 q.2).flatten)

/-- The backfill appended to one category in one run: the best candidates
by location tier, truncated to the number of empty slots (empty when the
category has no empty slot). -/
def backfillOf (fetch : String → String → List HJob)
    (trackerNames blocklist : List String)
    (existing : List HJob) (queryList : List (String × String)) : List HJob :=
  let kept := keptOf trackerNames existing
  let slots : Int := 5 - (kept.length : Int)
  if slots > 0 then
    (sortByTier (candidatesOf fetch queryList kept trackerNames blocklist)).take slots.toNat
  else []

/-- One category's reconciliation in `fetch_hot_jobs`: filter the persisted
entries by the tracker, compute `slots_needed = 5 - len(kept)`, and only
when it is positive fetch, dedup, sort and append candidates. -/
def stepCategory (fetch : String → String → List HJob)
    (trackerNames blocklist : List String)
    (existing : List HJob) (queryList : List (String × String)) : List HJob :=
  let kept := keptOf trackerNames existing
  let slots : Int := 5 - (kept.length : Int)
  if slots > 0 then
    kept ++ (sortByTier (candidatesOf fetch queryList kept trackerNames blocklist)).take slots.toNat
  else kept

/-- The persisted sticky state: `current_jobs` (category → listings) and
the blocklist. -/
structure HotState where
  current : List (String × List HJob)
  blocklist : List String
deriving Repr

/-- One run's environment: the tracker's company names (dict keys) and the
LinkedIn fetch results. -/
structure RunEnv where
  tracker : List String
  fetch : String → String → List HJob

/-- One full reconciliation run of `fetch_hot_jobs`: every category of the
query table is reconciled against the persisted state; empty categories
are omitted; the resulting map is saved together with the unchanged
blocklist (`save_hot_jobs_current` keeps the existing blocklist when
called without one). -/
def runHotJobs (queries : List (String × List (String × String)))
    (env : RunEnv) (st : HotState) : HotState :=
  let trackerNames := env.tracker.map pyNorm
  { current := queries.filterMap fun q =>
      let kept2 := stepCategory env.fetch trackerNames st.blocklist
        ((st.current.lookup q.1).getD []) q.2
      if kept2.isEmpty then none else some (q.1, kept2),
    blocklist := st.blocklist }

/-- A sequence of reconciliation runs. -/
def runMany (queries : List (String × List (String × String)))
    (st : HotState) : List RunEnv → HotState
  | [] => st
  | e :: es => runMany queries (runHotJobs queries e st) es

/-! Supporting lemmas about the hot-jobs reconciler. -/

theorem mem_sInsert {α : Type} {lt : α → α → Bool} {x a : α} {l : List α} :
    x ∈ sInsert lt a l ↔ x = a ∨ x ∈ l := by
  induction l with
  | nil => simp [sInsert]
  | cons b bs ih =>
    by_cases h : lt b a = true
    · simp only [sInsert, if_pos h, List.mem_cons, ih]
      tauto
    · simp only [sInsert, if_neg h, List.mem_cons]

theorem mem_sSort {α : Type} {lt : α → α → Bool} {x : α} {l : List α}
    (h : x ∈ sSort lt l) : x ∈ l := by
  induction l with
  | nil => simp [sSort] at h
  | cons a as ih =>
    rw [sSort, mem_sInsert] at h
    rcases h with h | h
    · simp [h]
    · exact List.mem_cons_of_mem _ (ih h)

theorem mem_collectCands {trackerNames blocklist : List String} {job : HJob}
    {urls : List String} {keys : List (String × String)} {l : List HJob}
    (h : job ∈ collectCands trackerNames blocklist urls keys l) :
    is_in_tracker (pyNorm job.company) trackerNames = false ∧
    is_blocklisted (pyNorm job.company) (pyNorm job.title) blocklist = false := by
  induction l generalizing urls keys with
  | nil => simp [collectCands] at h
  | cons j rest ih =>
    rw [collectCands] at h
    by_cases h1 : urls.contains j.url = true
    · rw [if_pos h1] at h; exact ih h
    · rw [if_neg h1] at h
      by_cases h2 : keys.contains (pyNorm j.company, pyNorm j.title) = true
      · rw [if_pos h2] at h; exact ih h
      · rw [if_neg h2] at h
        by_cases h3 : is_in_tracker (pyNorm j.company) trackerNames = true
        · rw [if_pos h3] at h; exact ih h
        · rw [if_neg h3] at h
          by_cases h4 :
              is_blocklisted (pyNorm j.company) (pyNorm j.title) blocklist = true
          · rw [if_pos h4] at h; exact ih h
          · rw [if_neg h4] at h
            rcases List.mem_cons.mp h with rfl | h5
            · exact ⟨Bool.eq_false_iff.mpr h3, Bool.eq_false_iff.mpr h4⟩
            · exact ih h5

theorem mem_backfillOf {fetch : String → String → List HJob}
    {trackerNames blocklist : List String} {existing : List HJob}
    {queryList : List (String × String)} {job : HJob}
    (h : job ∈ backfillOf fetch trackerNames blocklist existing queryList) :
    is_in_tracker (pyNorm job.company) trackerNames = false ∧
    is_blocklisted (pyNorm job.company) (pyNorm job.title) blocklist = false := by
  rw [backfillOf] at h
  by_cases hs : (5 - ((keptOf trackerNames existing).length : Int)) > 0
  · rw [if_pos hs] at h
    exact mem_collectCands (mem_sSort (List.mem_of_mem_take h))
  · rw [if_neg hs] at h
    simp at h

theorem stepCategory_eq_kept_append (fetch : String → String → List HJob)
    (trackerNames blocklist : List String) (existing : List HJob)
    (queryList : List (String × String)) :
    stepCategory fetch trackerNames blocklist existing queryList =
      keptOf trackerNames existing ++
        backfillOf fetch trackerNames blocklist existing queryList := by
  rw [stepCategory, backfillOf]
  by_cases hs : (5 - ((keptOf trackerNames existing).length : Int)) > 0
  · rw [if_pos hs, if_pos hs]
  · rw [if_neg hs, if_neg hs, List.append_nil]

theorem mem_stepCategory_not_tracked {fetch : String → String → List HJob}
    {trackerNames blocklist : List String} {existing : List HJob}
    {queryList : List (String × String)} {job : HJob}
    (h : job ∈ stepCategory fetch trackerNames blocklist existing queryList) :
    is_in_tracker (pyNorm job.company) trackerNames = false := by
  rw [stepCategory_eq_kept_append] at h
  rcases List.mem_append.mp h with h | h
  · have := List.of_mem_filter h
    simpa using this
  · exact (mem_backfillOf h).1

theorem length_stepCategory_le {fetch : String → String → List HJob}
    {trackerNames blocklist : List String} {existing : List HJob}
    {queryList : List (String × String)}
    (h : existing.length ≤ 5) :
    (stepCategory fetch trackerNames blocklist existing queryList).length ≤ 5 := by
  have hk : (keptOf trackerNames existing).length ≤ 5 :=
    le_trans (List.length_filter_le _ _) h
  rw [stepCategory]
  by_cases hs : (5 - ((keptOf trackerNames existing).length : Int)) > 0
  · rw [if_pos hs]
    rw [List.length_append]
    have ht := List.length_take_le
      ((5 - ((keptOf trackerNames existing).length : Int)).toNat)
      (sortByTier (candidatesOf fetch queryList (keptOf trackerNames existing)
        trackerNames blocklist))
    omega
  · rw [if_neg hs]
    exact hk

theorem lookup_mem {cat : String} {l : List (String × List HJob)} {v : List HJob}
    (h : l.lookup cat = some v) : (cat, v) ∈ l := by
  induction l with
  | nil => simp [List.lookup] at h
  | cons p rest ih =>
    rw [List.lookup] at h
    cases he : (cat == p.1) with
    | true =>
      rw [he] at h
      have h2 : p.2 = v := by simpa using h
      have hcat : cat = p.1 := by simpa using he
      subst h2
      rw [hcat]
      exact List.mem_cons_self _ _
    | false =>
      rw [he] at h
      exact List.mem_cons_of_mem _ (ih h)

theorem runMany_blocklist (queries : List (String × List (String × String)))
    (st : HotState) (envs : List RunEnv) :
    (runMany queries st envs).blocklist = st.blocklist := by
  induction envs generalizing st with
  | nil => rfl
  | cons e es ih => rw [runMany, ih]; rfl

/-! Concrete sample data used by the witnesses. -/

def hj1 : HJob := ⟨"Alpha", "Java Dev", "u1", "Paris"⟩

def hj2 : HJob := ⟨"Beta", "Java Dev", "u2", "Lyon, France"⟩

def hj3 : HJob := ⟨"Gamma", "Backend Dev", "u3", "Berlin"⟩

def hj4 : HJob := ⟨"Delta", "Product Owner", "u4", "Madrid"⟩

def hj5 : HJob := ⟨"Epsilon", "Project Manager", "u5", "Remote"⟩

def hj6 : HJob := ⟨"Zeta", "Java Dev", "u6", "Paris"⟩

def hjG : HJob := ⟨"Globex", "Dev", "u9", "Paris"⟩

def sampleQueries : List (String × List (String × String)) :=
  [("Senior Java", [("senior+java+developer", "Paris, France")])]

/-! ## Claim theorems C1–C4 -/

/-- C1: a single reconciliation run of `fetch_hot_jobs` keeps every
category of the resulting (and persisted) `current_jobs` map at
length at most 5, given that the persisted input state satisfies the
same capacity invariant. -/
theorem hot_jobs_capacity_invariant
    (queries : List (String × List (String × String))) (env : RunEnv) (st : HotState)
    (h : ∀ p ∈ st.current, p.2.length ≤ 5)
    (p : String × List HJob) (hp : p ∈ (runHotJobs queries env st).current) :
    p.2.length ≤ 5 := by
  rw [runHotJobs] at hp
  simp only [List.mem_filterMap] at hp
  obtain ⟨q, _hq, hsome⟩ := hp
  have hexlen : ((st.current.lookup q.1).getD []).length ≤ 5 := by
    cases hlk : st.current.lookup q.1 with
    | none => simp
    | some v =>
      have := h (q.1, v) (lookup_mem hlk)
      simpa using this
  by_cases hemp : (stepCategory env.fetch (env.tracker.map pyNorm) st.blocklist
      ((st.current.lookup q.1).getD []) q.2).isEmpty = true
  · rw [if_pos hemp] at hsome
    exact absurd hsome (by simp)
  · rw [if_neg hemp] at hsome
    have hp2 : p.2 = stepCategory env.fetch (env.tracker.map pyNorm) st.blocklist
        ((st.current.lookup q.1).getD []) q.2 := by
      cases hsome
      rfl
    rw [hp2]
    exact length_stepCategory_le hexlen

/-- Witness for C1: a category persisted at capacity 5 that loses one
entry to the tracker and backfills one fetched job stays at 5. -/
theorem hot_jobs_capacity_invariant_witness :
    (("Senior Java", [hj2, hj3, hj4, hj5, hj6]) : String × List HJob).2.length ≤ 5 :=
  hot_jobs_capacity_invariant sampleQueries
    ⟨["Alpha"], fun _ _ => [hj6]⟩
    ⟨[("Senior Java", [hj1, hj2, hj3, hj4, hj5])], []⟩
    (by
      intro p hp
      rw [List.mem_singleton] at hp
      subst hp
      decide)
    ("Senior Java", [hj2, hj3, hj4, hj5, hj6])
    (by decide)

/-- C2: once a `company||role` pair is in the blocklist, no later
reconciliation run backfills a candidate whose (normalised) company
contains that company and whose (normalised) title contains that role,
whatever the tracker and the fetches return in between. -/
theorem blocklisted_pair_stays_excluded
    (queries : List (String × List (String × String))) (st0 : HotState)
    (e c r : String) (past : List RunEnv) (env : RunEnv)
    (cat : String) (queryList : List (String × String)) (job : HJob)
    (hbl : e ∈ st0.blocklist)
    (hsplit : pySplitOnce "||" e = some (c, r))
    (hmem : job ∈ backfillOf env.fetch (env.tracker.map pyNorm)
      (runMany queries st0 past).blocklist
      (((runMany queries st0 past).current.lookup cat).getD []) queryList) :
    ¬(pySub c (pyNorm job.company) = true ∧ pySub r (pyNorm job.title) = true) := by
  rintro ⟨hc, hr⟩
  have hbl' : e ∈ (runMany queries st0 past).blocklist := by
    rw [runMany_blocklist]
    exact hbl
  have hnb := (mem_backfillOf hmem).2
  rw [is_blocklisted] at hnb
  have hfalse := List.any_eq_false.mp (by simpa using hnb) e hbl'
  rw [pySplitOnce] at hsplit
  cases hsf : splitFirst "||".data e.data with
  | none => rw [hsf] at hsplit; exact absurd hsplit (by simp)
  | some pr =>
    obtain ⟨p1, p2⟩ := pr
    rw [hsf] at hsplit
    have hpr : (⟨p1⟩ : String) = c ∧ (⟨p2⟩ : String) = r := by
      have h2 := Option.some.inj hsplit
      exact ⟨congrArg Prod.fst h2, congrArg Prod.snd h2⟩
    rw [hsf] at hfalse
    simp only [] at hfalse
    rw [hpr.1, hpr.2, hc, hr] at hfalse
    simp at hfalse

def envPause : RunEnv := ⟨[], fun _ _ => []⟩

def envGlobex : RunEnv := ⟨[], fun _ _ => [hjG]⟩

/-- Witness for C2: after one intervening run, the entry `acme||chef`
still cannot match the backfilled job `hjG`. -/
theorem blocklisted_pair_stays_excluded_witness :
    ¬(pySub "acme" (pyNorm hjG.company) = true ∧
      pySub "chef" (pyNorm hjG.title) = true) :=
  blocklisted_pair_stays_excluded sampleQueries ⟨[], ["acme||chef"]⟩
    "acme||chef" "acme" "chef" [envPause] envGlobex "Senior Java"
    [("senior+java+developer", "Paris, France")] hjG
    (by decide) (by decide) (by decide)

/-- C3: a persisted listing whose company substring-matches a tracker
company (case-insensitive, either direction, after `lower().strip()`)
is absent from the category's list after a reconciliation run. -/
theorem tracked_listing_removed
    (queries : List (String × List (String × String))) (env : RunEnv)
    (st : HotState) (cat : String) (L : HJob) (l : List HJob)
    (_hper : L ∈ (st.current.lookup cat).getD [])
    (htr : is_in_tracker (pyNorm L.company) (env.tracker.map pyNorm) = true)
    (hres : (cat, l) ∈ (runHotJobs queries env st).current) :
    L ∉ l := by
  intro hin
  rw [runHotJobs] at hres
  simp only [List.mem_filterMap] at hres
  obtain ⟨q, _hq, hsome⟩ := hres
  by_cases hemp : (stepCategory env.fetch (env.tracker.map pyNorm) st.blocklist
      ((st.current.lookup q.1).getD []) q.2).isEmpty = true
  · rw [if_pos hemp] at hsome
    exact absurd hsome (by simp)
  · rw [if_neg hemp] at hsome
    have hl : l = stepCategory env.fetch (env.tracker.map pyNorm) st.blocklist
        ((st.current.lookup q.1).getD []) q.2 := by
      cases hsome
      rfl
    rw [hl] at hin
    rw [mem_stepCategory_not_tracked hin] at htr
    exact absurd htr (by simp)

/-- Witness for C3: `hj1` (company "Alpha") is persisted, the tracker
holds "Alpha Inc", and `hj1` is gone after the run. -/
theorem tracked_listing_removed_witness : hj1 ∉ [hj2] :=
  tracked_listing_removed sampleQueries ⟨["Alpha Inc"], fun _ _ => []⟩
    ⟨[("Senior Java", [hj1, hj2])], []⟩ "Senior Java" hj1 [hj2]
    (by decide) (by decide) (by decide)

/-- C4: per category, with `kept` the persisted entries surviving
tracker-based removal and `deficit = 5 - len(kept)`: a non-positive
deficit means no fetch happens and the list stays exactly `kept`
(independent of the fetcher); otherwise the run appends at most
`deficit` backfill candidates, and a category whose `kept` has 4
entries appends exactly the single best candidate (`take 1`). -/
theorem deficit_backfill_behaviour
    (fetch : String → String → List HJob) (trackerNames blocklist : List String)
    (existing : List HJob) (queryList : List (String × String)) :
    ((5 : Int) - ((keptOf trackerNames existing).length : Int) ≤ 0 →
      ∀ fetch2, stepCategory fetch2 trackerNames blocklist existing queryList =
        keptOf trackerNames existing) ∧
    stepCategory fetch trackerNames blocklist existing queryList =
      keptOf trackerNames existing ++
        backfillOf fetch trackerNames blocklist existing queryList ∧
    (backfillOf fetch trackerNames blocklist existing queryList).length ≤
      ((5 : Int) - ((keptOf trackerNames existing).length : Int)).toNat ∧
    ((keptOf trackerNames existing).length = 4 →
      backfillOf fetch trackerNames blocklist existing queryList =
        (sortByTier (candidatesOf fetch queryList (keptOf trackerNames existing)
          trackerNames blocklist)).take 1) := by
  refine ⟨?_, stepCategory_eq_kept_append _ _ _ _ _, ?_, ?_⟩
  · intro hle fetch2
    rw [stepCategory, if_neg (by omega)]
  · rw [backfillOf]
    by_cases hs : (5 - ((keptOf trackerNames existing).length : Int)) > 0
    · rw [if_pos hs]
      exact List.length_take_le _ _
    · rw [if_neg hs]
      simp
  · intro h4
    rw [backfillOf, h4]
    norm_num

/-- Witness for C4: a full category is left untouched without fetching,
and a category with 4 kept entries backfills exactly `take 1` of the
sorted candidates. -/
theorem deficit_backfill_behaviour_witness :
    stepCategory (fun _ _ => [hj6]) [] []
        [hj1, hj2, hj3, hj4, hj5] [("q", "l")] =
      keptOf [] [hj1, hj2, hj3, hj4, hj5] ∧
    backfillOf (fun _ _ => [hj6]) ["alpha"] []
        [hj1, hj2, hj3, hj4, hj5] [("q", "l")] =
      (sortByTier (candidatesOf (fun _ _ => [hj6]) [("q", "l")]
        (keptOf ["alpha"] [hj1, hj2, hj3, hj4, hj5]) ["alpha"] [])).take 1 :=
  ⟨(deficit_backfill_behaviour (fun _ _ => [hj6]) [] []
      [hj1, hj2, hj3, hj4, hj5] [("q", "l")]).1 (by decide) _,
   (deficit_backfill_behaviour (fun _ _ => [hj6]) ["alpha"] []
      [hj1, hj2, hj3, hj4, hj5] [("q", "l")]).2.2.2 (by decide)⟩

/-! ## Sticky-file persistence (`save_hot_jobs_current`,
`_load_hot_jobs_file`, `load_hot_jobs_current`, `load_hot_jobs_blocklist`)

The JSON file is modelled as a value of `JVal`; a missing or corrupt file
is `Option.none` (the `FileNotFoundError`/`JSONDecodeError` branch). -/

inductive JVal where
  | jstr : String → JVal
  | jarr : List JVal → JVal
  | jobj : List (String × JVal) → JVal
deriving Repr

/-- Python `dict.get(k)` on a JSON object. -/
def jget (j : JVal) (k : String) : Option JVal :=
  match j with
  | .jobj fs => fs.lookup k
  | _ => none

/-- `_load_hot_jobs_file()`: the parsed file, or `{}` on error. -/
def load_hot_jobs_file (file : Option JVal) : JVal := file.getD (.jobj [])

/-- `load_hot_jobs_current()`: the raw `current_jobs` mapping (default `{}`). -/
def load_hot_jobs_current (file : Option JVal) : JVal :=
  (jget (load_hot_jobs_file file) "current_jobs").getD (.jobj [])

/-- `load_hot_jobs_blocklist()`: the raw `blocklist` entries (default `[]`),
consumed as a set. -/
def load_hot_jobs_blocklist (file : Option JVal) : List JVal :=
  match (jget (load_hot_jobs_file file) "blocklist").getD (.jarr []) with
  | .jarr xs => xs
  | _ => []

/-- A hot-job listing as stored in the JSON file. -/
def encodeJob (j : HJob) : JVal :=
  .jobj [("company", .jstr j.company), ("title", .jstr j.title),
         ("url", .jstr j.url), ("location", .jstr j.location)]

/-- `save_hot_jobs_current(current_jobs, blocklist)`: the written file;
when `blocklist` is `none` the existing file's blocklist is kept. -/
def save_hot_jobs_current (today : String) (current : List (String × List HJob))
    (blocklist : Option (List String)) (existingFile : Option JVal) : JVal :=
  .jobj
    [("last_updated", .jstr today),
     ("current_jobs", .jobj (current.map fun p => (p.1, .jarr (p.2.map encodeJob)))),
     ("blocklist",
       match blocklist with
       | some bl => .jarr (bl.map .jstr)
       | none => (jget (load_hot_jobs_file existingFile) "blocklist").getD (.jarr []))]

/-- Read a stored listing back. -/
def decodeJob (v : JVal) : Option HJob :=
  match jget v "company", jget v "title", jget v "url", jget v "location" with
  | some (.jstr c), some (.jstr t), some (.jstr u), some (.jstr l) =>
    some ⟨c, t, u, l⟩
  | _, _, _, _ => none

/-- Read a stored list of listings back. -/
def decodeJobs : List JVal → Option (List HJob)
  | [] => some []
  | v :: vs =>
    match decodeJob v, decodeJobs vs with
    | some j, some js => some (j :: js)
    | _, _ => none

/-- Read the stored category map back. -/
def decodeFields : List (String × JVal) → Option (List (String × List HJob))
  | [] => some []
  | (k, .jarr vs) :: rest =>
    match decodeJobs vs, decodeFields rest with
    | some js, some r => some ((k, js) :: r)
    | _, _ => none
  | _ => none

/-- Read the stored `current_jobs` value back. -/
def decodeCurrent : JVal → Option (List (String × List HJob))
  | .jobj fs => decodeFields fs
  | _ => none

/-- Read the stored blocklist back. -/
def decodeStrs : List JVal → Option (List String)
  | [] => some []
  | .jstr s :: rest => (decodeStrs rest).map (s :: ·)
  | _ => none

theorem decodeJob_encodeJob (j : HJob) : decodeJob (encodeJob j) = some j := rfl

theorem decodeJobs_encode (l : List HJob) :
    decodeJobs (l.map encodeJob) = some l := by
  induction l with
  | nil => rfl
  | cons j js ih =>
    rw [List.map_cons, decodeJobs, decodeJob_encodeJob, ih]

theorem decodeFields_encode (c : List (String × List HJob)) :
    decodeFields (c.map fun p => (p.1, .jarr (p.2.map encodeJob))) = some c := by
  induction c with
  | nil => rfl
  | cons p ps ih =>
    rw [List.map_cons, decodeFields, decodeJobs_encode, ih]

theorem decodeStrs_encode (bl : List String) :
    decodeStrs (bl.map JVal.jstr) = some bl := by
  induction bl with
  | nil => rfl
  | cons s ss ih =>
    rw [List.map_cons, decodeStrs, ih]
    rfl

/-- C5: saving the sticky state (categories map plus blocklist) and
reloading it via `load_hot_jobs_current` / `load_hot_jobs_blocklist`
reproduces the same categories with the same entries in the same order,
and the same blocklist entries (hence the same set of keys). -/
theorem sticky_file_round_trip (today : String) (c : List (String × List HJob))
    (bl : List String) (old : Option JVal) :
    decodeCurrent (load_hot_jobs_current
        (some (save_hot_jobs_current today c (some bl) old))) = some c ∧
    decodeStrs (load_hot_jobs_blocklist
        (some (save_hot_jobs_current today c (some bl) old))) = some bl := by
  constructor
  · have h1 : load_hot_jobs_current
        (some (save_hot_jobs_current today c (some bl) old)) =
        .jobj (c.map fun p => (p.1, .jarr (p.2.map encodeJob))) := rfl
    rw [h1, decodeCurrent]
    exact decodeFields_encode c
  · have h2 : load_hot_jobs_blocklist
        (some (save_hot_jobs_current today c (some bl) old)) =
        bl.map JVal.jstr := rfl
    rw [h2]
    exact decodeStrs_encode bl

/-! ## Remote search (`remote_search/remote_job_search.py`)

A remote listing is a dict with keys `company`, `title`, `url`, `source`,
`location`, `tags` and `posted_date` (all strings; `tags` is already
joined into one string by the fetchers). -/

structure RJob where
  company : String
  title : String
  url : String
  source : String
  location : String
  tags : String
  posted_date : String
deriving DecidableEq, Repr

/-! The filtering configuration (the defaults used when `config.py`
provides no override). -/

def ROLE_KEYWORDS : List String :=
  ["java", "backend", "back-end", "back end",
   "software engineer", "senior software", "tech lead",
   "api engineer",
   "ai engineer", "genai", "llm engineer"]

def PYTHON_SECONDARY_KEYWORDS : List String := ["python"]

def JAVA_BACKEND_SIGNALS : List String :=
  ["java", "backend", "back-end", "back end", "jvm", "spring", "microservices"]

def EU_FOCUSED_SOURCES : List String := ["Arbeitnow"]

def RELAXED_LOCATION_SOURCES : List String := ["Jobicy"]

def ROLE_EXCLUDE : List String :=
  ["data scientist", "machine learning engineer", "ml engineer",
   "data engineer", "analytics engineer", "research scientist",
   "frontend", "front-end", "front end", "ios ", "android ",
   "react native", "flutter",
   "web developer", "wordpress", "php developer", "ruby",
   "salesforce", ".net", "dotnet", "c# ", "node.js",
   "hubspot", "webflow", "figma", "shopify",
   "account executive", "sales ", "marketing",
   "full stack", "full-stack", "fullstack",
   "network engineer", "voip", "linux admin",
   "consultant", "werkstudent", "intern ",
   "new grad", "graduate engineer", "entry level", "junior ",
   "guatemala", "latin america", "latam",
   "ror ", "rails developer", "ruby on rails",
   "web development manager", "manager, web",
   "freelance", "dataops", "data ops",
   "network automation",
   "devops", "dev ops", "cloud engineer", "sre",
   "site reliability", "infrastructure engineer",
   "platform engineer", "systems engineer",
   "prompt engineer", "c++"]

def LOCATION_PRIORITY : List (List String × Nat) :=
  [(["paris"], 0),
   (["france"], 1),
   (["emea", "europe", "eu", "germany", "netherlands", "belgium",
     "spain", "italy", "switzerland", "austria", "poland", "czech",
     "sweden", "norway", "denmark", "portugal", "ireland",
     "cet", "cest", "central european"], 2),
   (["uk", "united kingdom", "london", "britain"], 3),
   (["worldwide", "anywhere", "global"], 4)]

def LOCATION_INCLUDE : List String :=
  ["worldwide", "anywhere", "emea", "europe", "eu", "france",
   "paris", "global", "uk", "germany", "netherlands",
   "belgium", "spain", "italy", "switzerland", "austria",
   "sweden", "norway", "denmark", "portugal", "ireland",
   "poland", "czech", "united kingdom", "london",
   "romania", "hungary", "greece", "finland", "croatia",
   "luxembourg", "berlin", "amsterdam", "barcelona", "munich",
   "dublin", "lisbon", "warsaw", "prague", "vienna", "brussels",
   "gmt", "cet", "cest", "central european", "utc+1", "utc+2"]

def LOCATION_EXCLUDE : List String :=
  ["us only", "us timezone", "americas only", "usa only",
   "us-based", "est/pst", "canada only", "canada", "north america",
   "us or canada", "usa/canada", "na only",
   "new york", "san francisco", "los angeles", "seattle", "chicago",
   "austin", "boston", "denver", "miami", "toronto", "vancouver",
   "asia only", "apac only", "india only", "latam only",
   "united states", "seattle, wa", "washington, dc"]

def US_INDICATORS : List String :=
  ["united states", "usa", "us ", "u.s.", "america",
   "new york", "san francisco", "los angeles", "seattle", "chicago",
   "austin", "boston", "denver", "miami", "washington",
   "california", "texas", ", ny", ", ca", ", wa",
   "toronto", "vancouver", "canada"]

def EMEA_SIGNALS : List String :=
  ["anywhere", "worldwide", "global", "emea", "europe", "eu",
   "france", "paris", "uk", "germany", "netherlands",
   "belgium", "spain", "italy", "switzerland", "austria",
   "sweden", "norway", "denmark", "portugal", "ireland",
   "poland", "czech", "united kingdom", "london",
   "romania", "hungary", "greece", "finland", "croatia",
   "luxembourg", "berlin", "amsterdam", "barcelona", "munich",
   "dublin", "lisbon", "warsaw", "prague", "vienna", "brussels",
   "gmt", "cet", "cest", "utc+1", "utc+2"]

/-- The role-keyword portion of `filter_jobs`: not role-excluded, and
either a primary keyword matches, or the only match is the secondary
"python" keyword and a Java/backend signal is also present
(the `if matches_python and not matches_primary` / `elif not
matches_primary` ladder, flattened to one Boolean). -/
def passesRoleChecks (job : RJob) : Bool :=
  let search_text := pyLower job.title ++ " " ++ pyLower job.tags
  !anySub ROLE_EXCLUDE search_text &&
    (anySub ROLE_KEYWORDS search_text ||
      (anySub PYTHON_SECONDARY_KEYWORDS search_text &&
        anySub JAVA_BACKEND_SIGNALS search_text))

/-- The per-listing predicate of `filter_jobs`: role checks, hard
location excludes, the US-flag emoji, the US/Canada check with its EMEA
override, the EU-focused-source pass, the EMEA-include pass, and the
relaxed-source fallback. -/
def passesFilter (job : RJob) : Bool :=
  let title_lower := pyLower job.title
  let location_lower := pyLower job.location
  let tags_lower := pyLower job.tags
  if !passesRoleChecks job then false
  else
    let loc_tags := location_lower ++ " " ++ tags_lower
    if anySub LOCATION_EXCLUDE loc_tags then false
    else if pySub "🇺🇸" job.location then false
    else
      let loc_title := location_lower ++ " " ++ title_lower
      let has_us := anySub US_INDICATORS loc_title
      if has_us && !anySub EMEA_SIGNALS loc_tags then false
      else if EU_FOCUSED_SOURCES.contains job.source then true
      else if anySub LOCATION_INCLUDE loc_tags then true
      else
        let enriched_us := pySub "likely us" tags_lower || pyStarts "us " tags_lower
        RELAXED_LOCATION_SOURCES.contains job.source && !has_us && !enriched_us

/-- `filter_jobs(jobs)`: keep the listings passing `passesFilter`,
in order. -/
def filter_jobs (jobs : List RJob) : List RJob := jobs.filter passesFilter

/-- `get_location_tier(job)`: first matching tier of `LOCATION_PRIORITY`
wins; unmatched locations get tier 5. -/
def get_location_tier (job : RJob) : Nat :=
  let loc := pyLower job.location
  go LOCATION_PRIORITY loc
where
  go : List (List String × Nat) → String → Nat
  | [], _ => 5
  | (kws, tier) :: rest, loc =>
    if kws.any (fun kw => pySub kw loc) then tier else go rest loc

/-- `is_explicitly_remote(job)`. -/
def is_explicitly_remote (job : RJob) : Bool :=
  let text := pyLower job.title ++ " " ++ pyLower job.location
  pySub "remote" text || pySub "full remote" text || pySub "télétravail" text

/-- Python string `<` on code points: lexicographic, a strict prefix is
smaller. -/
def listLt : List Char → List Char → Bool
  | [], [] => false
  | [], _ :: _ => true
  | _ :: _, [] => false
  | a :: as, b :: bs =>
    if a.toNat < b.toNat then true
    else if b.toNat < a.toNat then false
    else listLt as bs

/-- Python string `<` (lexicographic on code points). -/
def strLt (a b : String) : Bool := listLt a.data b.data

/-- The sort key of `sort_jobs`:
`(tier, 0 if explicitly remote else 1, posted_date[::-1])`. -/
def sortKey (j : RJob) : Nat × Nat × String :=
  (get_location_tier j, if is_explicitly_remote j then 0 else 1, pyRev j.posted_date)

/-- Strict lexicographic comparison of sort keys (Python tuple `<`). -/
def keyLt (a b : Nat × Nat × String) : Bool :=
  a.1 < b.1 ||
    (a.1 == b.1 &&
      (a.2.1 < b.2.1 || (a.2.1 == b.2.1 && strLt a.2.2 b.2.2)))

/-- `sort_jobs(jobs)`: stable sort by `sortKey` ascending. -/
def sort_jobs (jobs : List RJob) : List RJob :=
  sSort (fun a b => keyLt (sortKey a) (sortKey b)) jobs

/-- The dedup key of `dedup_jobs`: normalised `(company, title)`. -/
def dedupKey (j : RJob) : String × String := (pyNorm j.company, pyNorm j.title)

/-- The loop of `dedup_jobs`, threading the `seen` set. -/
def dedupGo (seen : List (String × String)) : List RJob → List RJob
  | [] => []
  | j :: rest =>
    if seen.contains (dedupKey j) then dedupGo seen rest
    else j :: dedupGo (dedupKey j :: seen) rest

/-- `dedup_jobs(jobs)`: drop listings whose normalised `(company, title)`
was already seen. -/
def dedup_jobs (jobs : List RJob) : List RJob := dedupGo [] jobs

/-- Modelled from the spec (for comparison with `dedup_jobs`): keep each
listing and erase every later listing with the same normalised
`(company, title)` — "first occurrence wins". -/
def firstOccurrences : List RJob → List RJob
  | [] => []
  | j :: rest =>
    j :: firstOccurrences (rest.filter fun k => !(dedupKey k == dedupKey j))
termination_by l => l.length
decreasing_by
  simp only [List.length_cons]
  exact Nat.lt_succ_of_le (List.length_filter_le _ _)

/-! Supporting lemmas for the remote-search claims. -/

theorem filter_idem {α : Type} (p : α → Bool) (l : List α) :
    (l.filter p).filter p = l.filter p := by
  induction l with
  | nil => rfl
  | cons a as ih =>
    cases h : p a with
    | true => simp [List.filter_cons, h, ih]
    | false => simp [List.filter_cons, h, ih]

theorem dedupGo_eq (l : List RJob) :
    ∀ seen, dedupGo seen l =
      firstOccurrences (l.filter fun j => !seen.contains (dedupKey j)) := by
  induction l with
  | nil =>
    intro seen
    simp only [List.filter_nil]
    rw [firstOccurrences]
    rfl
  | cons j rest ih =>
    intro seen
    rw [dedupGo]
    cases hc : seen.contains (dedupKey j) with
    | true =>
      simp only [hc, if_true, List.filter_cons, Bool.not_true]
      rw [if_neg (by simp)]
      exact ih seen
    | false =>
      simp only [hc, Bool.false_eq_true, if_false, List.filter_cons, Bool.not_false]
      rw [if_pos (by simp)]
      rw [firstOccurrences]
      congr 1
      rw [ih (dedupKey j :: seen)]
      congr 1
      rw [List.filter_filter]
      apply List.filter_congr
      intro x _
      simp only [List.contains_cons]
      cases h1 : dedupKey x == dedupKey j <;>
        cases h2 : seen.contains (dedupKey x) <;> simp [h1, h2]

/-! ## Claim theorems C6–C8, C10 -/

def rjNew : RJob :=
  ⟨"CompA", "Java Engineer A", "ua", "Remotive", "France", "", "2024-01-16"⟩

def rjOld : RJob :=
  ⟨"CompB", "Java Engineer B", "ub", "Remotive", "France", "", "2024-01-15"⟩

/-- C6 fails on the code: `sort_jobs` uses the character-reversed
`posted_date` as an ascending key, which is not date-descending.  Two
listings with equal tier and equal remote flag come out oldest first:
the 2024-01-15 listing sorts before 2024-01-16. -/
theorem sort_jobs_not_date_descending :
    sort_jobs [rjNew, rjOld] = [rjOld, rjNew] ∧
    get_location_tier rjNew = get_location_tier rjOld ∧
    is_explicitly_remote rjNew = is_explicitly_remote rjOld ∧
    strLt rjOld.posted_date rjNew.posted_date = true := by decide

/-- C7: `filter_jobs` is a pure per-listing filter, so filtering an
already-filtered list returns it unchanged (order preserved). -/
theorem filter_jobs_idempotent (l : List RJob) :
    filter_jobs (filter_jobs l) = filter_jobs l :=
  filter_idem passesFilter l

/-- C8: `dedup_jobs` retains exactly the first occurrence (in original
order) of each normalised `(company, title)` pair and drops every later
occurrence: it equals the "first occurrence wins" specification. -/
theorem dedup_jobs_first_occurrence_wins (l : List RJob) :
    dedup_jobs l = firstOccurrences l := by
  rw [dedup_jobs, dedupGo_eq]
  congr 1
  apply List.filter_eq_self.mpr
  intro x _
  rfl

def rjEmeaOk : RJob :=
  ⟨"X", "Senior Java Engineer", "u10", "Remotive", "Remote, USA", "emea",
   "2024-01-01"⟩

def rjUsOnly : RJob :=
  ⟨"Y", "Senior Java Engineer", "u11", "Remotive", "Remote, USA", "",
   "2024-01-01"⟩

def rjEmeaCanada : RJob :=
  ⟨"Z", "Senior Java Engineer", "u12", "RemoteOK", "Remote, USA",
   "emea canada", "2024-01-01"⟩

/-- C10 as stated is false: this listing passes the role checks, has
location "Remote, USA" and tags containing "emea", yet `filter_jobs`
drops it because its tags also hit the hard location-exclude
substring "canada" — the EMEA override only applies to the
US-indicator check, not to `LOCATION_EXCLUDE`. -/
theorem us_emea_override_counterexample :
    passesRoleChecks rjEmeaCanada = true ∧
    rjEmeaCanada.location = "Remote, USA" ∧
    pySub "emea" (pyLower rjEmeaCanada.tags) = true ∧
    filter_jobs [rjEmeaCanada] = [] := by decide

/-- C10 (amended): for listings passing the role checks with location
"Remote, USA": if the location+tags text hits no hard location-exclude
substring and the tags contain "emea", the listing is retained (the
EMEA signal overrides the US-indicator hit); if no EMEA signal occurs
in location+tags, the listing is dropped. -/
theorem us_exclusion_emea_override
    (jobA jobB : RJob) (l1 l2 : List RJob)
    (hA1 : jobA.location = "Remote, USA")
    (hA2 : passesRoleChecks jobA = true)
    (hA3 : anySub LOCATION_EXCLUDE
      (pyLower jobA.location ++ " " ++ pyLower jobA.tags) = false)
    (hA4 : pySub "emea" (pyLower jobA.tags) = true)
    (hAmem : jobA ∈ l1)
    (hB1 : jobB.location = "Remote, USA")
    (hB2 : passesRoleChecks jobB = true)
    (hB3 : anySub EMEA_SIGNALS
      (pyLower jobB.location ++ " " ++ pyLower jobB.tags) = false) :
    jobA ∈ filter_jobs l1 ∧ jobB ∉ filter_jobs l2 := by
  constructor
  · have hemea : anySub EMEA_SIGNALS
        (pyLower jobA.location ++ " " ++ pyLower jobA.tags) = true :=
      anySub_of_mem (by decide) (pySub_append_right _ hA4)
    have hinc : anySub LOCATION_INCLUDE
        (pyLower jobA.location ++ " " ++ pyLower jobA.tags) = true :=
      anySub_of_mem (by decide) (pySub_append_right _ hA4)
    have hflag : pySub "🇺🇸" jobA.location = false := by
      rw [hA1]
      decide
    have hpass : passesFilter jobA = true := by
      unfold passesFilter
      simp only [hA2, hA3, hemea, hinc, hflag]
      simp
    exact List.mem_filter.mpr ⟨hAmem, hpass⟩
  · have husaloc : pySub "usa" (pyLower jobB.location) = true := by
      rw [hB1]
      decide
    have husa : anySub US_INDICATORS
        (pyLower jobB.location ++ " " ++ pyLower jobB.title) = true :=
      anySub_of_mem (by decide)
        (pySub_append_left _ (pySub_append_left _ husaloc))
    have hflag : pySub "🇺🇸" jobB.location = false := by
      rw [hB1]
      decide
    have hpass : passesFilter jobB = false := by
      unfold passesFilter
      cases hx : anySub LOCATION_EXCLUDE
          (pyLower jobB.location ++ " " ++ pyLower jobB.tags) with
      | true => simp [hx]
      | false => simp [hB2, hx, hflag, husa, hB3]
    intro hmem
    have := (List.mem_filter.mp hmem).2
    rw [hpass] at this
    exact absurd this (by simp)

/-- Witness for C10 (amended): the "Remote, USA"+"emea" listing is
retained, the "Remote, USA" listing without EMEA signal is dropped. -/
theorem us_exclusion_emea_override_witness :
    rjEmeaOk ∈ filter_jobs [rjEmeaOk] ∧ rjUsOnly ∉ filter_jobs [rjUsOnly] :=
  us_exclusion_emea_override rjEmeaOk rjUsOnly [rjEmeaOk] [rjUsOnly]
    (by decide) (by decide) (by decide) (by decide) (by decide)
    (by decide) (by decide) (by decide)

/-! ## The six source fetchers

Each fetcher is modelled over pre-parsed responses: a network or JSON/XML
parse failure of a request is an `Except.error` (the raised exception),
a successful request carries the decoded payload.  `fetch_remoteok`,
`fetch_remotive` and `fetch_jobicy` wrap a single request in one
`try`/`except`; `fetch_arbeitnow` wraps its page loop in one
`try`/`except` (so a page failure returns the jobs accumulated so far);
`fetch_weworkremotely` and `fetch_linkedin_france` use one `try`/`except`
per feed/query (so a failure skips only that feed/query).  Standard-library
date parsing (`parsedate_to_datetime`, `strptime`) and `html.unescape`
are passed in as function parameters (`none` models a raised parse
error). -/

structure ROItem where
  company : String
  position : String
  url : String
  location : String
  tags : List String
  date : String

/-- `fetch_remoteok()`: drop the first element of the API payload (a
legal notice), map the rest.  On error, no job was appended yet, so the
result is empty. -/
def fetch_remoteok (resp : Except String (List ROItem)) : List RJob :=
  match resp with
  | .error _ => []
  | .ok data =>
    (data.drop 1).map fun it =>
      { company := it.company, title := it.position, url := it.url,
        source := "RemoteOK", location := it.location,
        tags := joinComma it.tags, posted_date := take10 it.date }

structure RVItem where
  company_name : String
  title : String
  url : String
  candidate_required_location : String
  category : String
  publication_date : String

/-- `fetch_remotive()`. -/
def fetch_remotive (resp : Except String (List RVItem)) : List RJob :=
  match resp with
  | .error _ => []
  | .ok items =>
    items.map fun it =>
      { company := it.company_name, title := it.title, url := it.url,
        source := "Remotive", location := it.candidate_required_location,
        tags := it.category, posted_date := take10 it.publication_date }

structure ANItem where
  remote : Bool
  company_name : String
  title : String
  url : String
  location : String
  tags : List String
  created_at : String

/-- One Arbeitnow item (non-remote items are skipped; `created_at` is
modelled as the string case, `str(created_at)[:10]`). -/
def anJob (it : ANItem) : RJob :=
  { company := it.company_name, title := it.title, url := it.url,
    source := "Arbeitnow", location := it.location,
    tags := joinComma it.tags, posted_date := take10 it.created_at }

/-- The page loop of `fetch_arbeitnow`: stop at an empty page; a failed
request aborts the loop, keeping the jobs accumulated from earlier
pages (the single `try` wraps the whole loop). -/
def anGo : List (Except String (List ANItem)) → List RJob
  | [] => []
  | .error _ :: _ => []
  | .ok [] :: _ => []
  | .ok items :: rest =>
    (items.filterMap fun it => if it.remote then some (anJob it) else none) ++ anGo rest

/-- `fetch_arbeitnow()`: up to 3 pages. -/
def fetch_arbeitnow (pages : List (Except String (List ANItem))) : List RJob :=
  anGo (pages.take 3)

structure JItem where
  company : String
  name : String
  link : String
  region : String
  jobtype : String
  pubdate : String

/-- `fetch_jobicy()` (`unesc` models `html.unescape`, `parseD` models
`strptime('%d.%m.%Y')` + `strftime`). -/
def fetch_jobicy (unesc : String → String) (parseD : String → Option String)
    (resp : Except String (List JItem)) : List RJob :=
  match resp with
  | .error _ => []
  | .ok items =>
    items.map fun it =>
      { company := unesc it.company, title := unesc it.name, url := it.link,
        source := "Jobicy", location := it.region, tags := it.jobtype,
        posted_date :=
          if it.pubdate == "" then ""
          else match parseD (pyStrip it.pubdate) with
               | some d => d
               | none => take10 it.pubdate }

structure WWRItem where
  guid : String
  title : String
  region : String
  country : String
  pubdate : String
  link : String
  category : String

/-- One We Work Remotely item: split `"Company: Job Title"` at the first
colon, build the location from region and country, parse the date
(`parseD` models `parsedate_to_datetime` + `strftime`). -/
def wwrJob (parseD : String → Option String) (it : WWRItem) : RJob :=
  let ct : String × String :=
    match pySplitOnce ":" it.title with
    | some (c, t) => (pyStrip c, pyStrip t)
    | none => ("", pyStrip it.title)
  let location :=
    if it.country != "" && !pySub it.country it.region then
      it.region ++ ", " ++ it.country
    else it.region
  let posted :=
    if it.pubdate == "" then ""
    else match parseD it.pubdate with
         | some d => d
         | none => take10 it.pubdate
  { company := ct.1, title := ct.2,
    url := if it.guid != "" then it.guid else it.link,
    source := "WWR", location := location, tags := it.category,
    posted_date := posted }

/-- The item loop of one WWR feed, threading the cross-feed
`seen_guids` set; returns the updated set and the feed's jobs. -/
def wwrItems (parseD : String → Option String) (seen : List String) :
    List WWRItem → List String × List RJob
  | [] => (seen, [])
  | it :: rest =>
    if seen.contains it.guid then wwrItems parseD seen rest
    else
      let res := wwrItems parseD (it.guid :: seen) rest
      (res.1, wwrJob parseD it :: res.2)

/-- The feed loop of `fetch_weworkremotely`: each feed has its own
`try`/`except`, so a failed feed is skipped and later feeds still
contribute. -/
def wwrFeeds (parseD : String → Option String) (seen : List String) :
    List (Except String (List WWRItem)) → List RJob
  | [] => []
  | .error _ :: rest => wwrFeeds parseD seen rest
  | .ok items :: rest =>
    let res := wwrItems parseD seen items
    res.2 ++ wwrFeeds parseD res.1 rest

/-- `fetch_weworkremotely()`. -/
def fetch_weworkremotely (parseD : String → Option String)
    (feeds : List (Except String (List WWRItem))) : List RJob :=
  wwrFeeds parseD [] feeds

/-- One LinkedIn guest-API response after regex extraction. -/
structure LIResp where
  status : Nat
  titles : List String
  companies : List String
  locations : List String
  links : List String

/-- The item loop of one LinkedIn France query: walk the zipped
title/company/location/link quadruples (the zip realises
`range(min(...))`), dedup by cleaned url across queries. -/
def liItems (unesc : String → String) (today : String) (seen : List String) :
    List (String × String × String × String) → List String × List RJob
  | [] => (seen, [])
  | (t, c, l, lk) :: rest =>
    let clean := beforeChar '?' (unesc lk)
    if seen.contains clean then liItems unesc today seen rest
    else
      let job : RJob :=
        { company := pyStrip c, title := pyStrip t, url := clean,
          source := "LinkedIn FR", location := pyStrip l, tags := "",
          posted_date := today }
      let res := liItems unesc today (clean :: seen) rest
      (res.1, job :: res.2)

/-- The query loop of `fetch_linkedin_france`: each query has its own
`try`/`except`, and a non-200 status is skipped with `continue`. -/
def liGo (unesc : String → String) (today : String) (seen : List String) :
    List (Except String LIResp) → List RJob
  | [] => []
  | .error _ :: rest => liGo unesc today seen rest
  | .ok r :: rest =>
    if r.status != 200 then liGo unesc today seen rest
    else
      let quads := r.titles.zip (r.companies.zip (r.locations.zip r.links))
      let res := liItems unesc today seen quads
      res.2 ++ liGo unesc today res.1 rest

/-- `fetch_linkedin_france()`. -/
def fetch_linkedin_france (unesc : String → String) (today : String)
    (resps : List (Except String LIResp)) : List RJob :=
  liGo unesc today [] resps

/-! ## Claim C9 -/

def noParse : String → Option String := fun _ => none

def wwrIt1 : WWRItem :=
  ⟨"g1", "Acme: Backend Engineer", "Europe", "", "", "", "Programming"⟩

/-- C9 as stated is false: a network failure of We Work Remotely's
second feed is caught, but the fetcher returns the listings already
parsed from the first feed — not an empty list. -/
theorem fetcher_failure_counterexample :
    fetch_weworkremotely noParse [.ok [wwrIt1], .error "timeout"] =
      [⟨"Acme", "Backend Engineer", "g1", "WWR", "Europe", "Programming", ""⟩] ∧
    fetch_weworkremotely noParse [.ok [wwrIt1], .error "timeout"] ≠ [] := by
  decide

theorem wwrFeeds_all_errors (parseD : String → Option String)
    (seen : List String) (es : List String) :
    wwrFeeds parseD seen (es.map .error) = [] := by
  induction es with
  | nil => rfl
  | cons e es ih => rw [List.map_cons, wwrFeeds, ih]

theorem liGo_all_errors (unesc : String → String) (today : String)
    (seen : List String) (es : List String) :
    liGo unesc today seen (es.map .error) = [] := by
  induction es with
  | nil => rfl
  | cons e es ih => rw [List.map_cons, liGo, ih]

theorem wwrFeeds_append_error (parseD : String → Option String) (e : String)
    (feeds : List (Except String (List WWRItem))) :
    ∀ seen, wwrFeeds parseD seen (feeds ++ [.error e]) =
      wwrFeeds parseD seen feeds := by
  induction feeds with
  | nil => intro seen; rfl
  | cons f rest ih =>
    intro seen
    cases f with
    | error err => rw [List.cons_append, wwrFeeds, ih, wwrFeeds]
    | ok items => rw [List.cons_append, wwrFeeds, ih, wwrFeeds]

/-- C9 (amended): every fetcher catches failures instead of raising;
a failed request contributes no listing, and the fetcher returns an
empty list when the failure precedes all parsed listings (single-request
fetchers on their request failing, `fetch_arbeitnow` on its first page,
`fetch_weworkremotely` / `fetch_linkedin_france` when every feed/query
fails); but a mid-run failure only loses the failing feed: listings
accumulated before it are still returned. -/
theorem fetchers_fail_closed (e : String) (es : List String)
    (unesc : String → String) (parseD : String → Option String) (today : String)
    (rest : List (Except String (List ANItem))) :
    fetch_remoteok (.error e) = [] ∧
    fetch_remotive (.error e) = [] ∧
    fetch_arbeitnow (.error e :: rest) = [] ∧
    fetch_jobicy unesc parseD (.error e) = [] ∧
    fetch_weworkremotely parseD (es.map .error) = [] ∧
    fetch_linkedin_france unesc today (es.map .error) = [] ∧
    (∀ feeds, fetch_weworkremotely parseD (feeds ++ [.error e]) =
      fetch_weworkremotely parseD feeds) := by
  refine ⟨rfl, rfl, rfl, rfl, ?_, ?_, ?_⟩
  · exact wwrFeeds_all_errors parseD [] es
  · exact liGo_all_errors unesc today [] es
  · intro feeds
    exact wwrFeeds_append_error parseD e feeds []

end JobSearch
